import Mathlib

/-!
Verification of the saturn engine's concurrent orchestration layer
(`saturn_engine/utils/asyncutils.py`, `saturn_engine/worker/broker.py`,
`saturn_engine/worker/topics/rabbitmq.py`) against its specification.

Asynchronous Python is embedded shallowly: each coroutine's control flow
becomes a pure Lean function over an explicit state, with the scheduling
nondeterminism (which tasks are finished, what a publish attempt returns,
when an event fires) supplied as explicit parameters, and the externally
visible effects (sleeps, cancellations, log lines) returned as data.
-/

namespace Saturn

/-! ### TasksGroup (`asyncutils.py`, lines 26-99)

Tasks are identified by natural numbers. `fin t` tells whether task `t`
is finished at the moment the `asyncio.wait` call inside
`TasksGroup.wait` returns; `sentinelFired` tells whether the sentinel
`updated_task` (armed on `self.updated.wait()`) is among the completed
futures, i.e. whether `notify()` ran since `wait` cleared the event.

`asyncio.wait(..., return_when=FIRST_COMPLETED)` returns as soon as at
least one awaited future completes, and its `done` set then holds every
future that is complete at that point.  `TasksGroup.wait` awaits
`self.tasks | set of the updated task`, removes the sentinel from `done`
if present, removes `done` from `self.tasks` and returns `done`.
-/

/-- The `done` set computed by `TasksGroup.wait` after the sentinel has
been filtered out: every tracked task that is finished. -/
def TasksGroup.waitDone (tasks : Finset ℕ) (fin : ℕ → Bool) : Finset ℕ :=
  tasks.filter (fun t => fin t = true)

/-- The tracked set after `self.tasks.difference_update(done)`. -/
def TasksGroup.waitRemaining (tasks : Finset ℕ) (fin : ℕ → Bool) : Finset ℕ :=
  tasks \ TasksGroup.waitDone tasks fin

/-- The condition under which the inner `asyncio.wait` (and hence
`TasksGroup.wait`) returns at all: at least one of the awaited futures
— a tracked task or the sentinel — has completed. -/
def TasksGroup.wakes (tasks : Finset ℕ) (fin : ℕ → Bool)
    (sentinelFired : Bool) : Prop :=
  sentinelFired = true ∨ ∃ t ∈ tasks, fin t = true

instance (tasks : Finset ℕ) (fin : ℕ → Bool) (s : Bool) :
    Decidable (TasksGroup.wakes tasks fin s) := by
  unfold TasksGroup.wakes; infer_instance

/-! ### RabbitMQTopic.run (`rabbitmq.py`, lines 53-69)

The consume loop is driven by a script of connection attempts.  One
attempt connects, yields `msgs` messages (each of which resets the
failure counter to `0` via `attempt = 0`), and then either the iterator
ends without an exception (`cleanEnd`) or an `Exception` escapes
(`fail`).  On `fail` the loop logs, sleeps `backoff_sleep(attempt)`,
increments the counter and reconnects; on `cleanEnd` the `else: break`
clause exits the `while True` loop and `run` returns.
-/

inductive AttemptEnd
  | cleanEnd
  | fail
deriving DecidableEq, Repr

structure Attempt where
  msgs : ℕ
  ending : AttemptEnd
deriving DecidableEq, Repr

/-- `FAILURE_RETRY_BACKOFFS`, in seconds. -/
def FAILURE_RETRY_BACKOFFS : List ℕ := [0, 1, 5, 15, 30]

/-- `RabbitMQTopic.backoff_sleep`: the delay slept for a given
consecutive-failure count — the schedule entry if in range, else the
last entry. -/
def backoff_sleep (attempt : ℕ) : ℕ :=
  if h : attempt < FAILURE_RETRY_BACKOFFS.length then
    FAILURE_RETRY_BACKOFFS.get ⟨attempt, h⟩
  else
    FAILURE_RETRY_BACKOFFS.getLast (by decide)

/-- `RabbitMQTopic.run` driven by a finite script of attempts, starting
from failure counter `attempt`.  Returns the list of backoff sleeps
performed and whether the loop terminated on its own (via the
`else: break` clause).  An exhausted script means the loop was still
running (connecting or consuming) when observation stopped. -/
def RabbitMQTopic.runSteps : List Attempt → ℕ → List ℕ × Bool
  | [], _ => ([], false)
  | a :: rest, attempt =>
    match a.ending with
    | AttemptEnd.cleanEnd => ([], true)
    | AttemptEnd.fail =>
      let att := if a.msgs > 0 then 0 else attempt
      let r := RabbitMQTopic.runSteps rest (att + 1)
      (backoff_sleep att :: r.1, r.2)

/-! ### Broker (`broker.py`, lines 28-122)

`Broker.close` awaits, in order and with no exception handling,
`scheduler.close()`, `task_manager.close()`, `services.close()` and
`executor.close()`.  `Broker.stop` logs, returns early when
`running_task` is `None`, and otherwise calls `running_task.cancel()`;
it never assigns `is_running`.
-/

inductive CloseStep
  | scheduler
  | taskManager
  | services
  | executor
deriving DecidableEq, Repr

/-- The order of the four awaits in `Broker.close`. -/
def Broker.closeOrder : List CloseStep :=
  [CloseStep.scheduler, CloseStep.taskManager, CloseStep.services,
   CloseStep.executor]

/-- Run a sequence of close steps the way Python's sequential `await`s
do: each step runs only if every earlier one returned normally; the
first step whose close raises aborts the sequence and its exception
propagates.  Returns the list of steps that actually ran and the step
whose exception escaped, if any. -/
def runCloseSeq (fails : CloseStep → Bool) :
    List CloseStep → List CloseStep × Option CloseStep
  | [] => ([], none)
  | s :: rest =>
    if fails s then ([s], some s)
    else
      let r := runCloseSeq fails rest
      (s :: r.1, r.2)

/-- `Broker.close`, parameterized by which sub-closes raise. -/
def Broker.close (fails : CloseStep → Bool) :
    List CloseStep × Option CloseStep :=
  runCloseSeq fails Broker.closeOrder

/-- The broker state that `stop` touches: the `is_running` flag and the
optional `running_task` handle, modelled by its cancelled flag. -/
structure BrokerState where
  is_running : Bool
  running_task : Option Bool
deriving DecidableEq, Repr

/-- `Broker.stop`: return early when there is no running task, else
cancel it.  `is_running` is left untouched. -/
def Broker.stop (b : BrokerState) : BrokerState :=
  match b.running_task with
  | none => b
  | some _ => { b with running_task := some true }

/-! ### RabbitMQTopic.publish (`rabbitmq.py`, lines 71-131)

The publish loop's environment is a stream of attempt outcomes: each
iteration of the `while True` loop ensures the queue, fetches the
channel and calls `exchange.publish`, which either succeeds, raises an
`aio_pika.exceptions.DeliveryError` (whose frame is `Basic.Nack` for a
queue-full rejection, or something else), or raises some other
`Exception`.
-/

inductive PublishAttempt
  | success
  | nack
  | deliveryOther
  | otherError
deriving DecidableEq, Repr

inductive PublishResult
  | returned (b : Bool)
  | raised
  | running
deriving DecidableEq, Repr

/-- The `while True` retry loop inside `publish`, consuming one attempt
outcome per iteration.  On `success` it returns `true`.  On a
`DeliveryError` whose frame is not `Basic.Nack` it re-raises.  On
`Basic.Nack` with `wait = false` it returns `false`, with `wait = true`
it backs off and retries.  On any other `Exception` it logs and, with
`wait = false`, re-raises, else backs off and retries.  An exhausted
outcome stream means the loop was still retrying. -/
def publishLoop (wait : Bool) : List PublishAttempt → PublishResult
  | [] => PublishResult.running
  | o :: rest =>
    match o with
    | PublishAttempt.success => PublishResult.returned true
    | PublishAttempt.nack =>
      if wait then publishLoop wait rest else PublishResult.returned false
    | PublishAttempt.deliveryOther => PublishResult.raised
    | PublishAttempt.otherError =>
      if wait then publishLoop wait rest else PublishResult.raised

/-- How many publish attempts the loop made before exiting. -/
def publishAttemptCount (wait : Bool) : List PublishAttempt → ℕ
  | [] => 0
  | o :: rest =>
    match o with
    | PublishAttempt.success => 1
    | PublishAttempt.nack =>
      if wait then 1 + publishAttemptCount wait rest else 1
    | PublishAttempt.deliveryOther => 1
    | PublishAttempt.otherError =>
      if wait then 1 + publishAttemptCount wait rest else 1

/-- `RabbitMQTopic.publish`: with `wait = false` and
`self._publish_lock.locked_reservations()` true it returns `false`
before reserving, having made no publish attempt; otherwise it reserves
and enters the retry loop.  Returns the loop result and the number of
publish attempts made. -/
def RabbitMQTopic.publish (wait : Bool) (lockedReservations : Bool)
    (outcomes : List PublishAttempt) : PublishResult × ℕ :=
  if !wait && lockedReservations then (PublishResult.returned false, 0)
  else (publishLoop wait outcomes, publishAttemptCount wait outcomes)

/-! ### SharedLock (`asyncutils.py`, lines 251-315)

Reservation identities are natural numbers.  The observable state is the
underlying `asyncio.Lock` (`lockHeld`) and the `_locker` attribute.
`_acquire` either returns at once (same identity), suspends on
`self._lock.acquire()` (mutex held by someone else), or takes the free
mutex and becomes the locker.
-/

structure SharedLock where
  lockHeld : Bool
  locker : Option ℕ
deriving DecidableEq, Repr

inductive AcquireOutcome
  | immediate (s : SharedLock)
  | blocked
  | acquired (s : SharedLock)
deriving DecidableEq, Repr

/-- `SharedLock._acquire(reservation)`: if `self._locker is reservation`
return immediately without awaiting; otherwise `await
self._lock.acquire()` — which suspends while the mutex is held — and on
acquisition set `self._locker = reservation`. -/
def SharedLock.acquireStep (s : SharedLock) (r : ℕ) : AcquireOutcome :=
  if s.locker = some r then AcquireOutcome.immediate s
  else if s.lockHeld then AcquireOutcome.blocked
  else AcquireOutcome.acquired { lockHeld := true, locker := some r }

/-- `SharedLock._release(reservation)`: a no-op unless `reservation` is
the current locker, in which case the locker is cleared and the mutex
released. -/
def SharedLock.releaseStep (s : SharedLock) (r : ℕ) : SharedLock :=
  if s.locker = some r then { lockHeld := false, locker := none }
  else s

/-- `SharedLockReservation.locked`: true iff this reservation is the
current locker. -/
def SharedLockReservation.locked (s : SharedLock) (r : ℕ) : Bool :=
  s.locker = some r

/-! ### TasksGroup.close (`asyncutils.py`, lines 68-96)

Each tracked task is described by its behaviour relative to the two
`asyncio.wait` calls inside `close`: whether it is already finished when
`close` is called, whether it finishes during the first (grace) wait,
whether it finishes during the second wait once cancelled, and whether
`not task.cancelled() and isinstance(task.exception(), Exception)`
holds of its final state.  `close` is rendered as the list of external
operations it performs; `none` models the call never returning (an
unbounded second wait on a task that never completes).
-/

structure CTask where
  id : ℕ
  doneAlready : Bool
  finishesInGrace : Bool
  finishesAfterCancel : Bool
  failed : Bool
deriving DecidableEq, Repr

inductive CloseOp
  | cancelSentinel
  | waitTasks (timeout : Option ℕ)
  | cancelTask (id : ℕ)
  | logTaskError (id : ℕ)
  | logWontComplete (id : ℕ)
  | clearTasks
deriving DecidableEq, Repr

/-- Python truthiness of the `timeout` float argument: `None` and `0`
are falsy. -/
def timeoutTruthy : Option ℕ → Bool
  | none => false
  | some n => decide (n ≠ 0)

/-- Whether a task is in the `done` set once the grace-period wait (if
any) has passed. -/
def TasksGroup.doneFirst (timeout : Option ℕ) (t : CTask) : Bool :=
  t.doneAlready || (timeoutTruthy timeout && t.finishesInGrace)

/-- Whether a task is in the `done` set of the second `asyncio.wait`. -/
def TasksGroup.doneSecond (timeout : Option ℕ) (t : CTask) : Bool :=
  TasksGroup.doneFirst timeout t || t.finishesAfterCancel

/-- `TasksGroup.close(timeout)` as the list of operations it performs:
cancel the sentinel `updated_task`; return if no task remains; if
`timeout` is truthy, `await asyncio.wait(self.tasks, timeout=timeout)`;
cancel every task not yet done; `await asyncio.wait(self.tasks,
timeout=timeout)` again; log an error per failed done task and a
"won't complete" line per pending task; clear the set.  `none` is the
diverging case: the second wait is unbounded (`timeout=None`) and some
task never completes. -/
def TasksGroup.closeTrace (timeout : Option ℕ) (tasks : List CTask) :
    Option (List CloseOp) :=
  if tasks.isEmpty then some [CloseOp.cancelSentinel]
  else
    let firstWaitOps :=
      if timeoutTruthy timeout then [CloseOp.waitTasks timeout] else []
    let cancelOps :=
      (tasks.filter (fun t => !TasksGroup.doneFirst timeout t)).map
        (fun t => CloseOp.cancelTask t.id)
    let doneTasks := tasks.filter (fun t => TasksGroup.doneSecond timeout t)
    let pendingTasks :=
      tasks.filter (fun t => !TasksGroup.doneSecond timeout t)
    if timeout = none ∧ pendingTasks ≠ [] then none
    else
      some ([CloseOp.cancelSentinel] ++ firstWaitOps ++ cancelOps ++
        [CloseOp.waitTasks timeout] ++
        (doneTasks.filter (fun t => t.failed)).map
          (fun t => CloseOp.logTaskError t.id) ++
        pendingTasks.map (fun t => CloseOp.logWontComplete t.id) ++
        [CloseOp.clearTasks])

/-! ### CachedProperty (`asyncutils.py`, lines 195-239)

The instance-dictionary slot is empty, holds an in-flight task
(identified by a number), or holds a resolved future.  Readers are
identified by numbers; a read either attaches the reader to a task it
must await or delivers a value at once.  A task completion delivers its
outcome (`Except.ok` value or `Except.error`, an exception) to every
reader awaiting it and updates the slot: success freezes the value,
failure deletes the slot so the next read starts over.
-/

inductive CacheSlot (α : Type)
  | empty
  | inflight (id : ℕ)
  | resolved (a : α)
deriving DecidableEq, Repr

structure CacheState (α : Type) where
  slot : CacheSlot α
  nextId : ℕ
  waiting : List (ℕ × ℕ)
  delivered : List (ℕ × Except Unit α)

/-- `CachedProperty._get_attribute` up to its first suspension: a read
on an empty slot creates the initializer task, stores it and awaits it;
a read on an in-flight slot awaits that same task; a read on a resolved
future gets the frozen value without running anything. -/
def CachedProperty.readStep (s : CacheState α) (reader : ℕ) : CacheState α :=
  match s.slot with
  | CacheSlot.empty =>
    { s with
      slot := CacheSlot.inflight s.nextId
      nextId := s.nextId + 1
      waiting := (reader, s.nextId) :: s.waiting }
  | CacheSlot.inflight i => { s with waiting := (reader, i) :: s.waiting }
  | CacheSlot.resolved v =>
    { s with delivered := (reader, Except.ok v) :: s.delivered }

/-- Completion of initializer task `i` with outcome `out`: every reader
awaiting `i` receives `out`; if the slot still holds task `i`, success
replaces it with a resolved future holding the value and failure deletes
it (`del instance.__dict__[...]`). -/
def CachedProperty.completeStep (s : CacheState α) (i : ℕ)
    (out : Except Unit α) : CacheState α :=
  let slot' :=
    match s.slot, out with
    | CacheSlot.inflight j, Except.ok v =>
      if j = i then CacheSlot.resolved v else CacheSlot.inflight j
    | CacheSlot.inflight j, Except.error _ =>
      if j = i then CacheSlot.empty else CacheSlot.inflight j
    | sl, _ => sl
  { slot := slot'
    nextId := s.nextId
    waiting := s.waiting.filter (fun p => p.2 ≠ i)
    delivered :=
      (s.waiting.filter (fun p => p.2 = i)).map (fun p => (p.1, out)) ++
        s.delivered }

/-! ### DelayedThrottle (`asyncutils.py`, lines 141-180)

The `delayed_task` attribute is `None`, a pending `_delay_call` task
(scheduled to fire after `delay`), or a cancelled task object that
still occupies the slot.  `delayed_args` holds the most recent call's
arguments (initially the empty tuple).
-/

inductive DelayedTaskSlot
  | noneSlot
  | scheduled
  | cancelledTask
deriving DecidableEq, Repr

structure DelayedThrottle (α : Type) where
  delayed_args : α
  delayed_task : DelayedTaskSlot
deriving DecidableEq, Repr

/-- `DelayedThrottle.__call__`: record the latest arguments; create the
delayed task only when the slot is `None`. -/
def DelayedThrottle.call (s : DelayedThrottle α) (a : α) :
    DelayedThrottle α :=
  { delayed_args := a
    delayed_task :=
      match s.delayed_task with
      | DelayedTaskSlot.noneSlot => DelayedTaskSlot.scheduled
      | t => t }

/-- A sequence of calls, oldest first. -/
def DelayedThrottle.callSeq (s : DelayedThrottle α) (l : List α) :
    DelayedThrottle α :=
  l.foldl DelayedThrottle.call s

/-- The delay elapsing: a pending `_delay_call` wakes from its sleep,
invokes `self.func` with the recorded arguments and resets the slot to
`None`.  A cancelled or absent task never fires.  Returns the
invocations performed. -/
def DelayedThrottle.fire (s : DelayedThrottle α) :
    List α × DelayedThrottle α :=
  match s.delayed_task with
  | DelayedTaskSlot.scheduled =>
    ([s.delayed_args], { s with delayed_task := DelayedTaskSlot.noneSlot })
  | _ => ([], s)

/-- `DelayedThrottle.cancel`: return if the slot is `None`; otherwise
cancel the task and await it, suppressing `CancelledError`.  The slot
keeps the (now cancelled) task object — it is not reset to `None`. -/
def DelayedThrottle.cancel (s : DelayedThrottle α) : DelayedThrottle α :=
  match s.delayed_task with
  | DelayedTaskSlot.noneSlot => s
  | _ => { s with delayed_task := DelayedTaskSlot.cancelledTask }

/-- `DelayedThrottle.flush`: return if the slot is `None`; otherwise
cancel the pending task, invoke `self.func` with the recorded arguments
and reset the slot to `None`.  Returns the invocations performed. -/
def DelayedThrottle.flush (s : DelayedThrottle α) :
    List α × DelayedThrottle α :=
  match s.delayed_task with
  | DelayedTaskSlot.noneSlot => ([], s)
  | _ =>
    ([s.delayed_args], { s with delayed_task := DelayedTaskSlot.noneSlot })

/-! ## Theorems -/

/-- C1: FALSE as stated.  With one tracked, unfinished task and the
sentinel fired by a concurrent `notify()` (e.g. an `add` or `remove`
racing the wait), `TasksGroup.wait` wakes and returns the empty set even
though the tracked set is nonempty — contradicting "never returns the
empty set unless the set was empty when wait() was called". -/
theorem C1_counterexample :
    TasksGroup.wakes {0} (fun _ => false) true ∧
    TasksGroup.waitDone {0} (fun _ => false) = ∅ ∧
    ({0} : Finset ℕ) ≠ ∅ := by
  refine ⟨Or.inl rfl, ?_, ?_⟩ <;> decide

/-- C1 (amended): whenever `TasksGroup.wait` wakes, it returns exactly
the finished subset of the tracked tasks and removes it from the set;
the result can be empty with a nonempty set, but only when the wakeup
came from the membership-notification sentinel. -/
theorem TasksGroup.wait_spec (tasks : Finset ℕ) (fin : ℕ → Bool)
    (sentinelFired : Bool) (t : ℕ)
    (hw : TasksGroup.wakes tasks fin sentinelFired) :
    (t ∈ TasksGroup.waitDone tasks fin ↔ t ∈ tasks ∧ fin t = true) ∧
    (t ∈ TasksGroup.waitRemaining tasks fin ↔ t ∈ tasks ∧ ¬fin t = true) ∧
    (TasksGroup.waitDone tasks fin = ∅ → sentinelFired = true) := by
  refine ⟨?_, ?_, ?_⟩
  · simp [TasksGroup.waitDone, Finset.mem_filter]
  · simp [TasksGroup.waitRemaining, TasksGroup.waitDone, Finset.mem_sdiff,
      Finset.mem_filter]
    tauto
  · intro h
    rcases hw with h' | ⟨u, hu, hf⟩
    · exact h'
    · exfalso
      have hmem : u ∈ TasksGroup.waitDone tasks fin :=
        Finset.mem_filter.mpr ⟨hu, hf⟩
      rw [h] at hmem
      exact Finset.not_mem_empty u hmem

/-- Witness for the amended C1 at a concrete input: one finished task. -/
theorem TasksGroup.wait_spec_witness :
    TasksGroup.wakes {0} (fun _ => true) false ∧
    ((0 ∈ TasksGroup.waitDone {0} (fun _ => true) ↔
        0 ∈ ({0} : Finset ℕ) ∧ true = true) ∧
      (0 ∈ TasksGroup.waitRemaining {0} (fun _ => true) ↔
        0 ∈ ({0} : Finset ℕ) ∧ ¬true = true) ∧
      (TasksGroup.waitDone {0} (fun _ => true) = ∅ → false = true)) :=
  ⟨Or.inr ⟨0, by decide, rfl⟩,
    TasksGroup.wait_spec {0} (fun _ => true) false 0
      (Or.inr ⟨0, by decide, rfl⟩)⟩

/-- C2: FALSE as stated.  A consume attempt whose iterator ends without
an exception makes `RabbitMQTopic.run` take the `else: break` branch:
the loop terminates on its own with no backoff sleep and no reconnect,
rather than treating the clean closure as a failure. -/
theorem C2_counterexample :
    RabbitMQTopic.runSteps [⟨0, AttemptEnd.cleanEnd⟩] 0 = ([], true) := by
  rfl

/-- C2 (amended): the consume loop terminates on its own exactly when
some attempt's iterator ends without an exception (performing no
backoff after it); every failed attempt before that — and only those —
contributes one backoff sleep before reconnecting. -/
theorem RabbitMQTopic.run_spec (l : List Attempt) (a : ℕ) :
    ((RabbitMQTopic.runSteps l a).2 = true ↔
      ∃ x ∈ l, x.ending = AttemptEnd.cleanEnd) ∧
    (RabbitMQTopic.runSteps l a).1.length =
      (l.takeWhile (fun x => x.ending == AttemptEnd.fail)).length := by
  induction l generalizing a with
  | nil => simp [RabbitMQTopic.runSteps]
  | cons x rest ih =>
    rcases hx : x.ending with _ | _
    · simp [RabbitMQTopic.runSteps, hx]
    · have ih' := ih ((if x.msgs > 0 then 0 else a) + 1)
      constructor
      · simp only [RabbitMQTopic.runSteps, hx]
        rw [ih'.1]
        simp [hx]
      · simp only [RabbitMQTopic.runSteps, hx, List.takeWhile, List.length]
        simp [hx, ih'.2]

/-- C3: FALSE as stated.  If `scheduler.close()` raises, `Broker.close`
propagates the exception at once: the task manager, services and
executor closes never run, contradicting "an exception raised while
closing any one of these steps does not prevent the subsequent close
steps from running". -/
theorem C3_counterexample :
    Broker.close (fun s => s == CloseStep.scheduler) =
      ([CloseStep.scheduler], some CloseStep.scheduler) ∧
    CloseStep.taskManager ∉
      (Broker.close (fun s => s == CloseStep.scheduler)).1 := by
  constructor <;> decide

/-- C3 (amended): `Broker.close` runs scheduler, task-manager, services
and executor closes in that order, but stops at the first step whose
close raises: exactly the steps before the failing one, plus the failing
one, run, and that step's exception propagates.  When no step raises,
all four run in order. -/
theorem Broker.close_spec (fails : CloseStep → Bool) :
    (Broker.close fails).1 =
      Broker.closeOrder.takeWhile (fun s => !fails s) ++
        (Broker.closeOrder.dropWhile (fun s => !fails s)).take 1 ∧
    (Broker.close fails).2 =
      (Broker.closeOrder.dropWhile (fun s => !fails s)).head?.filter
        (fun s => fails s) := by
  unfold Broker.close Broker.closeOrder
  rcases h1 : fails CloseStep.scheduler <;>
    rcases h2 : fails CloseStep.taskManager <;>
      rcases h3 : fails CloseStep.services <;>
        rcases h4 : fails CloseStep.executor <;>
          simp [runCloseSeq, h1, h2, h3, h4, List.takeWhile, List.dropWhile,
            Option.filter]

/-- C4: FALSE as stated.  `Broker.stop` never assigns `is_running`:
with the broker running and a running task present, the flag is still
true after `stop()`, contradicting "sets isRunning to false". -/
theorem C4_counterexample :
    (Broker.stop ⟨true, some false⟩).is_running = true := by
  rfl

/-- C4 (amended): `Broker.stop` leaves `is_running` unchanged, cancels
the running task when one exists (and is a no-op when none does), and is
idempotent. -/
theorem Broker.stop_spec (b : BrokerState) :
    (Broker.stop b).is_running = b.is_running ∧
    Broker.stop (Broker.stop b) = Broker.stop b ∧
    (Broker.stop b).running_task = b.running_task.map (fun _ => true) := by
  rcases b with ⟨ir, _ | c⟩ <;> simp [Broker.stop]

/-- C5: the broker-backed topic's `publish` with `wait = false` returns
`false` with zero publish attempts when the reservation lock would
block; returns `false` after one attempt on a broker `Basic.Nack`
(queue full); and re-raises after one attempt on any other publish
failure (a non-Nack `DeliveryError` or any other `Exception`). -/
theorem RabbitMQTopic.publish_spec (outcomes rest : List PublishAttempt) :
    RabbitMQTopic.publish false true outcomes =
      (PublishResult.returned false, 0) ∧
    RabbitMQTopic.publish false false (PublishAttempt.nack :: rest) =
      (PublishResult.returned false, 1) ∧
    RabbitMQTopic.publish false false (PublishAttempt.deliveryOther :: rest) =
      (PublishResult.raised, 1) ∧
    RabbitMQTopic.publish false false (PublishAttempt.otherError :: rest) =
      (PublishResult.raised, 1) ∧
    RabbitMQTopic.publish false false (PublishAttempt.success :: rest) =
      (PublishResult.returned true, 1) := by
  refine ⟨rfl, ?_, rfl, ?_, rfl⟩ <;>
    simp [RabbitMQTopic.publish, publishLoop, publishAttemptCount]

/-- C6: at most one reservation identity is the current locker of a
`SharedLock` at any time; `_acquire` by the current locker returns
immediately with the state unchanged (idempotent re-entry); a distinct
reservation suspends while the mutex is held and acquires (becoming the
locker) only once it is free. -/
theorem SharedLock.acquire_spec (s : SharedLock) (r r' : ℕ) :
    (SharedLockReservation.locked s r = true →
      SharedLockReservation.locked s r' = true → r = r') ∧
    (s.locker = some r →
      SharedLock.acquireStep s r = AcquireOutcome.immediate s) ∧
    (s.locker ≠ some r → s.lockHeld = true →
      SharedLock.acquireStep s r = AcquireOutcome.blocked) ∧
    (s.locker ≠ some r → s.lockHeld = false →
      SharedLock.acquireStep s r =
        AcquireOutcome.acquired ⟨true, some r⟩) := by
  refine ⟨?_, ?_, ?_, ?_⟩
  · intro h1 h2
    simp only [SharedLockReservation.locked, decide_eq_true_eq] at h1 h2
    rw [h1] at h2
    exact Option.some_injective ℕ h2
  · intro h
    simp [SharedLock.acquireStep, h]
  · intro h hh
    simp [SharedLock.acquireStep, h, hh]
  · intro h hh
    simp [SharedLock.acquireStep, h, hh]

/-- Witness for C6: reservation `5` holds the mutex; its own re-acquire
is immediate while reservation `7` blocks. -/
theorem SharedLock.acquire_spec_witness :
    SharedLock.acquireStep ⟨true, some 5⟩ 5 =
      AcquireOutcome.immediate ⟨true, some 5⟩ ∧
    SharedLock.acquireStep ⟨true, some 5⟩ 7 = AcquireOutcome.blocked :=
  ⟨(SharedLock.acquire_spec ⟨true, some 5⟩ 5 0).2.1 rfl,
    (SharedLock.acquire_spec ⟨true, some 5⟩ 7 0).2.2.1 (by decide) rfl⟩

/-- C7: FALSE as stated.  With `timeout = 1` and one task that never
completes even after cancellation, the second `asyncio.wait` inside
`TasksGroup.close` is again bounded by the same `timeout` — not
unbounded — and the task's final outcome is never collected (it is
logged as "won't complete"), contradicting "waits without a time bound
to collect every final outcome". -/
theorem C7_counterexample :
    TasksGroup.closeTrace (some 1) [⟨0, false, false, false, false⟩] =
      some [CloseOp.cancelSentinel, CloseOp.waitTasks (some 1),
        CloseOp.cancelTask 0, CloseOp.waitTasks (some 1),
        CloseOp.logWontComplete 0, CloseOp.clearTasks] ∧
    CloseOp.waitTasks none ∉
      [CloseOp.cancelSentinel, CloseOp.waitTasks (some 1),
        CloseOp.cancelTask 0, CloseOp.waitTasks (some 1),
        CloseOp.logWontComplete 0, CloseOp.clearTasks] ∧
    CloseOp.logWontComplete 0 ∈
      [CloseOp.cancelSentinel, CloseOp.waitTasks (some 1),
        CloseOp.cancelTask 0, CloseOp.waitTasks (some 1),
        CloseOp.logWontComplete 0, CloseOp.clearTasks] := by
  refine ⟨?_, ?_, ?_⟩ <;> decide

/-- C7 (amended): with a truthy timeout and tasks remaining,
`TasksGroup.close` cancels the sentinel first, waits once for voluntary
completion, cancels every task not yet done, then waits a second time
bounded by the same timeout (every wait it performs carries that same
bound); it always returns (logging rather than raising), logging an
error for each failed completed task and a "won't complete" line for
each task whose outcome was still pending when the bounded wait
expired, and ends by clearing the set. -/
theorem TasksGroup.closeTrace_spec (timeout : Option ℕ) (tasks : List CTask)
    (htr : timeoutTruthy timeout = true) (hne : tasks ≠ []) :
    ∃ tr, TasksGroup.closeTrace timeout tasks = some tr ∧
      tr.head? = some CloseOp.cancelSentinel ∧
      (∃ pre, tr = pre ++ [CloseOp.clearTasks]) ∧
      (∀ b, CloseOp.waitTasks b ∈ tr → b = timeout) ∧
      CloseOp.waitTasks timeout ∈ tr ∧
      (∀ t ∈ tasks, TasksGroup.doneFirst timeout t = false →
        CloseOp.cancelTask t.id ∈ tr) ∧
      (∀ t ∈ tasks, TasksGroup.doneSecond timeout t = true →
        t.failed = true → CloseOp.logTaskError t.id ∈ tr) ∧
      (∀ t ∈ tasks, TasksGroup.doneSecond timeout t = false →
        CloseOp.logWontComplete t.id ∈ tr) := by
  have hnn : timeout ≠ none := by
    intro h
    rw [h] at htr
    simp [timeoutTruthy] at htr
  refine ⟨[CloseOp.cancelSentinel] ++
    (if timeoutTruthy timeout then [CloseOp.waitTasks timeout] else []) ++
    (tasks.filter (fun t => !TasksGroup.doneFirst timeout t)).map
      (fun t => CloseOp.cancelTask t.id) ++
    [CloseOp.waitTasks timeout] ++
    ((tasks.filter (fun t => TasksGroup.doneSecond timeout t)).filter
      (fun t => t.failed)).map (fun t => CloseOp.logTaskError t.id) ++
    (tasks.filter (fun t => !TasksGroup.doneSecond timeout t)).map
      (fun t => CloseOp.logWontComplete t.id) ++
    [CloseOp.clearTasks], ?_, ?_, ?_, ?_, ?_, ?_, ?_, ?_⟩
  · unfold TasksGroup.closeTrace
    rw [if_neg (by simp [hne]), if_neg (by simp [hnn])]
  · simp
  · refine ⟨CloseOp.cancelSentinel ::
      ((if timeoutTruthy timeout = true then [CloseOp.waitTasks timeout]
        else []) ++
        ((tasks.filter (fun t => !TasksGroup.doneFirst timeout t)).map
          (fun t => CloseOp.cancelTask t.id) ++
          (CloseOp.waitTasks timeout ::
            (((tasks.filter (fun t => TasksGroup.doneSecond timeout t)).filter
              (fun t => t.failed)).map (fun t => CloseOp.logTaskError t.id) ++
              (tasks.filter (fun t => !TasksGroup.doneSecond timeout t)).map
                (fun t => CloseOp.logWontComplete t.id))))), ?_⟩
    simp
  · intro b hb
    simp only [List.mem_append, List.mem_map, List.mem_filter,
      List.mem_singleton, htr, if_true] at hb
    rcases hb with ((((((h | h) | h) | h) | h) | h) | h) <;>
      first
        | exact h
        | (simp at h; try exact h)
  · simp [htr]
  · intro t ht hdf
    have hm : CloseOp.cancelTask t.id ∈
        (tasks.filter (fun u => !TasksGroup.doneFirst timeout u)).map
          (fun u => CloseOp.cancelTask u.id) :=
      List.mem_map.mpr ⟨t, List.mem_filter.mpr ⟨ht, by simp [hdf]⟩, rfl⟩
    simp [List.mem_append, hm]
  · intro t ht hds hf
    have hm : CloseOp.logTaskError t.id ∈
        ((tasks.filter (fun u => TasksGroup.doneSecond timeout u)).filter
          (fun u => u.failed)).map (fun u => CloseOp.logTaskError u.id) :=
      List.mem_map.mpr ⟨t, List.mem_filter.mpr
        ⟨List.mem_filter.mpr ⟨ht, by simp [hds]⟩, by simp [hf]⟩, rfl⟩
    simp [List.mem_append, hm]
    exact ⟨t, ⟨ht, hf, hds⟩, rfl⟩
  · intro t ht hds
    have hm : CloseOp.logWontComplete t.id ∈
        (tasks.filter (fun u => !TasksGroup.doneSecond timeout u)).map
          (fun u => CloseOp.logWontComplete u.id) :=
      List.mem_map.mpr ⟨t, List.mem_filter.mpr ⟨ht, by simp [hds]⟩, rfl⟩
    simp [List.mem_append, hm]

/-- Witness for the amended C7: timeout `1`, one stuck task and one
task that finishes during the grace period with an exception. -/
theorem TasksGroup.closeTrace_spec_witness :
    timeoutTruthy (some 1) = true ∧
    ([⟨0, false, false, false, false⟩, ⟨1, false, true, false, true⟩] :
      List CTask) ≠ [] ∧
    ∃ tr, TasksGroup.closeTrace (some 1)
        [⟨0, false, false, false, false⟩, ⟨1, false, true, false, true⟩] =
        some tr ∧
      CloseOp.logWontComplete 0 ∈ tr ∧ CloseOp.logTaskError 1 ∈ tr := by
  refine ⟨by decide, by decide, ?_⟩
  obtain ⟨tr, htr, -, -, -, -, -, herr, hwont⟩ :=
    TasksGroup.closeTrace_spec (some 1)
      [⟨0, false, false, false, false⟩, ⟨1, false, true, false, true⟩]
      (by decide) (by decide)
  refine ⟨tr, htr, ?_, ?_⟩
  · exact hwont ⟨0, false, false, false, false⟩ (by decide) (by decide)
  · exact herr ⟨1, false, true, false, true⟩ (by decide) (by decide)
      (by decide)

/-- Helper: a sequence of calls on a throttle whose slot is occupied
(by a pending or cancelled task) only overwrites the recorded
arguments; the slot is untouched. -/
theorem DelayedThrottle.callSeq_occupied {α : Type} (l : List α)
    (s : DelayedThrottle α)
    (h : s.delayed_task ≠ DelayedTaskSlot.noneSlot) :
    DelayedThrottle.callSeq s l =
      ⟨l.getLastD s.delayed_args, s.delayed_task⟩ := by
  induction l generalizing s with
  | nil =>
    cases s
    simp [DelayedThrottle.callSeq]
  | cons a rest ih =>
    have hcall : DelayedThrottle.call s a = ⟨a, s.delayed_task⟩ := by
      cases s with
      | mk args task =>
        cases task with
        | noneSlot => exact absurd rfl h
        | scheduled => rfl
        | cancelledTask => rfl
    rw [show DelayedThrottle.callSeq s (a :: rest) =
        DelayedThrottle.callSeq (DelayedThrottle.call s a) rest from rfl,
      hcall, ih ⟨a, s.delayed_task⟩ h, List.getLastD_cons]

/-- C8: the memoized async value's full protocol.  A first read on an
empty slot starts exactly one initializer (the task counter advances)
and awaits it; a read during flight awaits that same task and starts
nothing; when the in-flight task fails, the slot is cleared, every
reader that awaited the attempt is handed the failure, and the next
read starts a fresh initializer; when it succeeds, the slot freezes the
value and every waiting reader receives it; reads after resolution get
the frozen value with no recomputation. -/
theorem CachedProperty.spec (α : Type) (s : CacheState α)
    (reader i : ℕ) (v : α) :
    (s.slot = CacheSlot.empty →
      (CachedProperty.readStep s reader).slot = CacheSlot.inflight s.nextId ∧
      (reader, s.nextId) ∈ (CachedProperty.readStep s reader).waiting ∧
      (CachedProperty.readStep s reader).nextId = s.nextId + 1) ∧
    (s.slot = CacheSlot.inflight i →
      (CachedProperty.readStep s reader).slot = s.slot ∧
      (CachedProperty.readStep s reader).nextId = s.nextId ∧
      (reader, i) ∈ (CachedProperty.readStep s reader).waiting) ∧
    (s.slot = CacheSlot.inflight i →
      (CachedProperty.completeStep s i (Except.error ())).slot =
        CacheSlot.empty ∧
      (∀ rd, (rd, i) ∈ s.waiting →
        (rd, (Except.error () : Except Unit α)) ∈
          (CachedProperty.completeStep s i (Except.error ())).delivered) ∧
      (CachedProperty.readStep
          (CachedProperty.completeStep s i (Except.error ())) reader).slot =
        CacheSlot.inflight s.nextId) ∧
    (s.slot = CacheSlot.inflight i →
      (CachedProperty.completeStep s i (Except.ok v)).slot =
        CacheSlot.resolved v ∧
      (∀ rd, (rd, i) ∈ s.waiting →
        (rd, Except.ok v) ∈
          (CachedProperty.completeStep s i (Except.ok v)).delivered)) ∧
    (s.slot = CacheSlot.resolved v →
      (CachedProperty.readStep s reader).slot = CacheSlot.resolved v ∧
      (CachedProperty.readStep s reader).nextId = s.nextId ∧
      (reader, Except.ok v) ∈ (CachedProperty.readStep s reader).delivered) := by
  refine ⟨?_, ?_, ?_, ?_, ?_⟩
  · intro h
    simp [CachedProperty.readStep, h]
  · intro h
    simp [CachedProperty.readStep, h]
  · intro h
    refine ⟨?_, ?_, ?_⟩
    · simp [CachedProperty.completeStep, h]
    · intro rd hrd
      simp only [CachedProperty.completeStep, List.mem_append]
      exact Or.inl (List.mem_map.mpr
        ⟨(rd, i), List.mem_filter.mpr ⟨hrd, by simp⟩, rfl⟩)
    · simp [CachedProperty.readStep, CachedProperty.completeStep, h]
  · intro h
    refine ⟨?_, ?_⟩
    · simp [CachedProperty.completeStep, h]
    · intro rd hrd
      simp only [CachedProperty.completeStep, List.mem_append]
      exact Or.inl (List.mem_map.mpr
        ⟨(rd, i), List.mem_filter.mpr ⟨hrd, by simp⟩, rfl⟩)
  · intro h
    simp [CachedProperty.readStep, h]

/-- Witness for C8: a slot in flight as task `3` with reader `9`
awaiting it; the attempt fails, reader `9` receives the failure, the
slot is cleared, and a new read starts initializer `4`. -/
theorem CachedProperty.spec_witness :
    (CacheState.mk (CacheSlot.inflight 3) 4 [(9, 3)] [] :
      CacheState ℕ).slot = CacheSlot.inflight 3 ∧
    (CachedProperty.completeStep
      (CacheState.mk (CacheSlot.inflight 3) 4 [(9, 3)] []) 3
      (Except.error ())).slot = (CacheSlot.empty : CacheSlot ℕ) ∧
    (9, (Except.error () : Except Unit ℕ)) ∈
      (CachedProperty.completeStep
        (CacheState.mk (CacheSlot.inflight 3) 4 [(9, 3)] []) 3
        (Except.error ())).delivered := by
  have h := (CachedProperty.spec ℕ
    (CacheState.mk (CacheSlot.inflight 3) 4 [(9, 3)] []) 9 3 0).2.2.1 rfl
  exact ⟨rfl, h.1, h.2.1 9 (by simp)⟩

/-- C9: starting from a throttle with no pending invocation, any
nonempty burst of calls that all land before the delay elapses leads,
when the single scheduled `_delay_call` fires, to exactly one invocation
of the wrapped function, carrying the arguments of the latest call;
earlier arguments were overwritten, never queued, and afterwards no
invocation is pending. -/
theorem DelayedThrottle.coalesce (α : Type) (s : DelayedThrottle α)
    (a0 : α) (rest : List α)
    (h : s.delayed_task = DelayedTaskSlot.noneSlot) :
    (DelayedThrottle.callSeq s (a0 :: rest)).delayed_task =
      DelayedTaskSlot.scheduled ∧
    (DelayedThrottle.fire (DelayedThrottle.callSeq s (a0 :: rest))).1 =
      [rest.getLastD a0] ∧
    (DelayedThrottle.fire
      (DelayedThrottle.callSeq s (a0 :: rest))).2.delayed_task =
      DelayedTaskSlot.noneSlot := by
  have hcall : DelayedThrottle.call s a0 = ⟨a0, DelayedTaskSlot.scheduled⟩ := by
    cases s with
    | mk args task => cases task <;> simp_all [DelayedThrottle.call]
  have hseq : DelayedThrottle.callSeq s (a0 :: rest) =
      ⟨rest.getLastD a0, DelayedTaskSlot.scheduled⟩ := by
    rw [show DelayedThrottle.callSeq s (a0 :: rest) =
        DelayedThrottle.callSeq (DelayedThrottle.call s a0) rest from rfl,
      hcall, DelayedThrottle.callSeq_occupied rest _ (by simp)]
  rw [hseq]
  exact ⟨rfl, rfl, rfl⟩

/-- Witness for C9: three calls with arguments `1, 2, 3` inside one
window; the single firing invokes the function once, with `3`. -/
theorem DelayedThrottle.coalesce_witness :
    (DelayedThrottle.fire
      (DelayedThrottle.callSeq
        (DelayedThrottle.mk 0 DelayedTaskSlot.noneSlot) [1, 2, 3])).1 =
      [3] :=
  (DelayedThrottle.coalesce ℕ ⟨0, DelayedTaskSlot.noneSlot⟩ 1 [2, 3] rfl).2.1

/-- C10: after `cancel()` cancels a scheduled invocation the slot still
holds the cancelled task — it is not reset to `None` — so every
subsequent call records its arguments but schedules nothing, the
elapsing delay invokes nothing, and only `flush()` can still invoke the
wrapped function (with the latest recorded arguments). -/
theorem DelayedThrottle.cancel_spec (α : Type) (s : DelayedThrottle α)
    (l : List α) (h : s.delayed_task = DelayedTaskSlot.scheduled) :
    (DelayedThrottle.cancel s).delayed_task =
      DelayedTaskSlot.cancelledTask ∧
    (DelayedThrottle.callSeq (DelayedThrottle.cancel s) l).delayed_task =
      DelayedTaskSlot.cancelledTask ∧
    (DelayedThrottle.fire
      (DelayedThrottle.callSeq (DelayedThrottle.cancel s) l)).1 = [] ∧
    (DelayedThrottle.flush
      (DelayedThrottle.callSeq (DelayedThrottle.cancel s) l)).1 =
      [l.getLastD s.delayed_args] := by
  have hc : DelayedThrottle.cancel s =
      ⟨s.delayed_args, DelayedTaskSlot.cancelledTask⟩ := by
    cases s with
    | mk args task => cases task <;> simp_all [DelayedThrottle.cancel]
  have hseq : DelayedThrottle.callSeq (DelayedThrottle.cancel s) l =
      ⟨l.getLastD s.delayed_args, DelayedTaskSlot.cancelledTask⟩ := by
    rw [hc, DelayedThrottle.callSeq_occupied l _ (by simp)]
  rw [hc] at hseq ⊢
  rw [hseq]
  exact ⟨rfl, rfl, rfl, rfl⟩

/-- Witness for C10: a pending invocation with argument `7` is
cancelled; calls with `8` and `9` schedule nothing and firing invokes
nothing, while `flush` still invokes with `9`. -/
theorem DelayedThrottle.cancel_spec_witness :
    (DelayedThrottle.fire
      (DelayedThrottle.callSeq
        (DelayedThrottle.cancel
          (DelayedThrottle.mk 7 DelayedTaskSlot.scheduled)) [8, 9])).1 =
      ([] : List ℕ) ∧
    (DelayedThrottle.flush
      (DelayedThrottle.callSeq
        (DelayedThrottle.cancel
          (DelayedThrottle.mk 7 DelayedTaskSlot.scheduled)) [8, 9])).1 =
      [9] :=
  ⟨(DelayedThrottle.cancel_spec ℕ ⟨7, DelayedTaskSlot.scheduled⟩
      [8, 9] rfl).2.2.1,
    (DelayedThrottle.cancel_spec ℕ ⟨7, DelayedTaskSlot.scheduled⟩
      [8, 9] rfl).2.2.2⟩

end Saturn
